import Mathlib

/-! Verification of the techno-economic optimization engine of
`optimize_gridsearch_hydro_static_STREAMLITCHECK.py`: the HOMER-style
lifecycle-cost (NPC) model, the hourly dispatch simulator, the hydro
operating-window search, the grid range generation, and the solution
selector.  Real-valued quantities (kW, kWh, dollars, rates) are modelled
as rationals; integer quantities (hour indices, lifetimes in years) as
naturals.  Python float arithmetic is modelled by exact rational
arithmetic. -/

/-! Cost model (HOMER NPC calculation functions). -/

/-- Embeds `calculate_real_discount_rate`: `(nominal - inflation) / (1 + inflation)`. -/
def calculate_real_discount_rate (nominal_rate inflation_rate : ℚ) : ℚ :=
  (nominal_rate - inflation_rate) / (1 + inflation_rate)

/-- Embeds `calculate_crf`.  The source special-cases `discount_rate == 0`
to `1.0 / lifetime_years`, otherwise `i(1+i)^n / ((1+i)^n - 1)`. -/
def calculate_crf (discount_rate : ℚ) (lifetime_years : ℕ) : ℚ :=
  if discount_rate = 0 then 1 / (lifetime_years : ℚ)
  else (discount_rate * (1 + discount_rate) ^ lifetime_years) /
       ((1 + discount_rate) ^ lifetime_years - 1)

/-- Embeds `calculate_present_value_factor`: `lifetime_years` when the rate
is zero, otherwise `((1+i)^n - 1) / (i(1+i)^n)`. -/
def calculate_present_value_factor (discount_rate : ℚ) (lifetime_years : ℕ) : ℚ :=
  if discount_rate = 0 then (lifetime_years : ℚ)
  else ((1 + discount_rate) ^ lifetime_years - 1) /
       (discount_rate * (1 + discount_rate) ^ lifetime_years)

/-- Embeds `calculate_salvage_value`.  `age_at_end = (age_at_start +
project_lifetime) % component_lifetime`; salvage is zero when the component
is exactly worn out, else `capital * remaining_life / component_lifetime`.
The source default `age_at_start=0` is supplied explicitly at call sites. -/
def calculate_salvage_value (component_capital : ℚ)
    (component_lifetime project_lifetime age_at_start : ℕ) : ℚ :=
  let age_at_end := (age_at_start + project_lifetime) % component_lifetime
  if age_at_end = 0 then 0
  else component_capital * (((component_lifetime - age_at_end : ℕ) : ℚ) / (component_lifetime : ℚ))

/-- Embeds the `while replacement_year < project_lifetime` loop of
`calculate_replacement_cost_pv`: starting at `replacement_year`, add
`replacement_cost / (1+rate)^year` and advance by `component_lifetime`.
The guard `component_lifetime = 0` makes the source loop diverge; the
model returns 0 there (unreachable under the claims' positivity
hypotheses). -/
def replacement_loop (replacement_cost discount_rate : ℚ)
    (component_lifetime project_lifetime : ℕ) (replacement_year : ℕ) : ℚ :=
  if h : component_lifetime = 0 ∨ project_lifetime ≤ replacement_year then 0
  else replacement_cost / ((1 + discount_rate) ^ replacement_year) +
       replacement_loop replacement_cost discount_rate component_lifetime project_lifetime
         (replacement_year + component_lifetime)
termination_by project_lifetime - replacement_year
decreasing_by
  push_neg at h
  omega

/-- Embeds `calculate_replacement_cost_pv`: zero when
`component_lifetime >= project_lifetime`, else the discounted sum over the
replacement years `component_lifetime, 2*component_lifetime, ...` strictly
below `project_lifetime`, at `replacement_cost = capital * multiplier`. -/
def calculate_replacement_cost_pv (component_capital : ℚ)
    (component_lifetime project_lifetime : ℕ)
    (discount_rate replacement_cost_multiplier : ℚ) : ℚ :=
  if project_lifetime ≤ component_lifetime then 0
  else replacement_loop (component_capital * replacement_cost_multiplier) discount_rate
         component_lifetime project_lifetime component_lifetime

/-- Record returned by `calculate_component_npc_homer` (the source returns
a dict with these keys). -/
structure ComponentNPC where
  capital : ℚ
  replacement_pv : ℚ
  om_pv : ℚ
  salvage_pv : ℚ
  npc : ℚ
  annualized : ℚ
  crf : ℚ
deriving DecidableEq

/-- Embeds `calculate_component_npc_homer`:
`npc = capital + replacement_pv + om_pv - salvage_pv`, with
`om_pv = annual_om * present_value_factor(rate, project_life)`,
`salvage_pv = salvage / (1+rate)^project_life`, and
`annualized = npc * crf(rate, project_life)`.  The source defaults
`replacement_cost_multiplier=0.8`; callers here pass it explicitly. -/
def calculate_component_npc_homer (capital_cost annual_om_cost : ℚ)
    (component_lifetime project_lifetime : ℕ)
    (discount_rate replacement_cost_multiplier : ℚ) : ComponentNPC :=
  let crf := calculate_crf discount_rate project_lifetime
  let replacement_pv := calculate_replacement_cost_pv capital_cost component_lifetime
    project_lifetime discount_rate replacement_cost_multiplier
  let salvage_value := calculate_salvage_value capital_cost component_lifetime project_lifetime 0
  let salvage_pv := salvage_value / ((1 + discount_rate) ^ project_lifetime)
  let pv_factor := calculate_present_value_factor discount_rate project_lifetime
  let om_pv := annual_om_cost * pv_factor
  let npc := capital_cost + replacement_pv + om_pv - salvage_pv
  let annualized_cost := npc * crf
  { capital := capital_cost
    replacement_pv := replacement_pv
    om_pv := om_pv
    salvage_pv := salvage_pv
    npc := npc
    annualized := annualized_cost
    crf := crf }

/-! Dispatch simulator (`calculate_dispatch_with_hydro`). -/

/-- Fields of the `solar_config` dict read by the dispatch simulator. -/
structure SolarConfig where
  baseline_kw : ℚ
deriving DecidableEq

/-- Fields of the `wind_config` dict read by the dispatch simulator.  The
source reads `wind_config.get('enabled', False)`; an absent key is the
same as `enabled = false`. -/
structure WindConfig where
  enabled : Bool
deriving DecidableEq

/-- Fields of the `hydro_config` dict.  `enabled` is never read by the
dispatch simulator (the source comment says the check was removed);
`hours_per_day` is read only by `find_optimal_hydro_window`. -/
structure HydroConfig where
  enabled : Bool
  hours_per_day : ℕ
deriving DecidableEq

/-- Fields of the `bess_config` dict read by the dispatch simulator
(fractions, already divided by 100 at input parsing time). -/
structure BessConfig where
  charge_eff : ℚ
  discharge_eff : ℚ
  min_soc : ℚ
  max_soc : ℚ
deriving DecidableEq

/-- One row of the hourly dispatch DataFrame produced by
`calculate_dispatch_with_hydro` (the source stores `Hydro_Active` as a 0/1
flag; it is modelled as a Bool). -/
structure HourRecord where
  load : ℚ
  pv_output : ℚ
  wind_output : ℚ
  hydro_output : ℚ
  hydro_active : Bool
  bess_charge : ℚ
  bess_discharge : ℚ
  bess_soc : ℚ
  unmet : ℚ
  excess : ℚ
deriving DecidableEq

/-- An all-zero hour record, used as the `getD` default. -/
def hr0 : HourRecord :=
  { load := 0, pv_output := 0, wind_output := 0, hydro_output := 0, hydro_active := false
    bess_charge := 0, bess_discharge := 0, bess_soc := 0, unmet := 0, excess := 0 }

/-- The scalar quantities the dispatch loop reads each hour, gathered from
the capacities and config dicts exactly as the source does before its
`for h in range(hours)` loop (`wind_baseline = 1.0`,
`min_soc_kwh = min_soc * bess_capacity`, etc.). -/
structure DispatchParams where
  pv_baseline : ℚ
  wind_enabled : Bool
  pv_capacity : ℚ
  wind_capacity : ℚ
  hydro_capacity : ℚ
  bess_power : ℚ
  charge_eff : ℚ
  discharge_eff : ℚ
  min_soc_kwh : ℚ
  max_soc_kwh : ℚ
  window_start : ℕ
  window_end : ℕ
deriving DecidableEq

/-- Builds the per-run scalars from the dispatch arguments, mirroring the
prologue of `calculate_dispatch_with_hydro`. -/
def dispatchParamsOf (pv_capacity wind_capacity hydro_capacity bess_power bess_capacity : ℚ)
    (solar_config : SolarConfig) (wind_config : WindConfig) (bess_config : BessConfig)
    (hydro_window_start hydro_window_end : ℕ) : DispatchParams :=
  { pv_baseline := solar_config.baseline_kw
    wind_enabled := wind_config.enabled
    pv_capacity := pv_capacity
    wind_capacity := wind_capacity
    hydro_capacity := hydro_capacity
    bess_power := bess_power
    charge_eff := bess_config.charge_eff
    discharge_eff := bess_config.discharge_eff
    min_soc_kwh := bess_config.min_soc * bess_capacity
    max_soc_kwh := bess_config.max_soc * bess_capacity
    window_start := hydro_window_start
    window_end := hydro_window_end }

/-- One iteration of the hourly dispatch loop: given the hour index, the
hour's load / PV-reference / wind-reference values and the current SOC,
produce the updated SOC and the recorded row.  Follows the source body of
`for h in range(hours)` line by line (merit order: PV+wind, hydro inside
its window, battery, unmet; surplus charges the battery, residual is
excess; SOC is clamped into `[min_soc_kwh, max_soc_kwh]` before being
recorded). -/
def dispatchStep (p : DispatchParams) (h : ℕ) (load pvsyst_h wind_h : ℚ)
    (current_soc : ℚ) : ℚ × HourRecord :=
  let hour_of_day := h % 24
  let hydro_active : Bool :=
    decide (p.window_start ≤ hour_of_day ∧ hour_of_day < p.window_end)
  let pv_avail := pvsyst_h * (p.pv_capacity / p.pv_baseline)
  let wind_avail := if p.wind_enabled then wind_h * (p.wind_capacity / 1) else 0
  let total_renewable := pv_avail + wind_avail
  let net_load0 := load - total_renewable
  let hydro_out :=
    if 0 < net_load0 ∧ hydro_active = true ∧ 0 < p.hydro_capacity then
      min net_load0 p.hydro_capacity
    else 0
  let net_load := net_load0 - hydro_out
  if 0 < net_load then
    let available_discharge := max 0 (current_soc - p.min_soc_kwh)
    let actual_discharge := available_discharge * p.discharge_eff
    let discharge := min p.bess_power (min actual_discharge net_load)
    let soc1 := if 0 < discharge then current_soc - discharge / p.discharge_eff
      else current_soc
    let unmet := max 0 (net_load - discharge)
    let soc2 := max p.min_soc_kwh (min soc1 p.max_soc_kwh)
    (soc2,
      { load := load, pv_output := pv_avail, wind_output := wind_avail
        hydro_output := hydro_out, hydro_active := hydro_active
        bess_charge := 0, bess_discharge := discharge, bess_soc := soc2
        unmet := unmet, excess := 0 })
  else
    let excess := |net_load|
    let available_space := max 0 (p.max_soc_kwh - current_soc)
    let max_charge := excess * p.charge_eff
    let charge := min p.bess_power (min available_space max_charge)
    let soc1 := current_soc + charge
    let energy_used := charge / p.charge_eff
    let excess_renewable := max 0 (excess - energy_used)
    let soc2 := max p.min_soc_kwh (min soc1 p.max_soc_kwh)
    (soc2,
      { load := load, pv_output := pv_avail, wind_output := wind_avail
        hydro_output := hydro_out, hydro_active := hydro_active
        bess_charge := charge, bess_discharge := 0, bess_soc := soc2
        unmet := 0, excess := excess_renewable })

/-- The hydro dispatch decision of one hour, as a stand-alone function of
the hour's inputs: it is the `hydro_output[h] = min(net_load,
hydro_capacity) if net_load > 0 and hydro_active and hydro_capacity > 0
else 0` sub-expression of the loop body, which does not depend on the
battery state. -/
def hydroOutFormula (p : DispatchParams) (h : ℕ) (load pvsyst_h wind_h : ℚ) : ℚ :=
  let hour_of_day := h % 24
  let hydro_active : Bool :=
    decide (p.window_start ≤ hour_of_day ∧ hour_of_day < p.window_end)
  let pv_avail := pvsyst_h * (p.pv_capacity / p.pv_baseline)
  let wind_avail := if p.wind_enabled then wind_h * (p.wind_capacity / 1) else 0
  let net_load0 := load - (pv_avail + wind_avail)
  if 0 < net_load0 ∧ hydro_active = true ∧ 0 < p.hydro_capacity then
    min net_load0 p.hydro_capacity
  else 0

/-- The hourly dispatch loop: runs `dispatchStep` for `n` hours starting
at hour index `h` with state `current_soc`, collecting the rows in order.
Profile values are read positionally (`getD _ 0`); the source indexes
equal-length arrays, where an out-of-range index would raise. -/
def dispatchAux (p : DispatchParams) (load_profile pvsyst_profile wind_profile : List ℚ) :
    ℚ → ℕ → ℕ → List HourRecord
  | _, _, 0 => []
  | current_soc, h, n + 1 =>
    (dispatchStep p h (load_profile.getD h 0) (pvsyst_profile.getD h 0)
        (wind_profile.getD h 0) current_soc).2 ::
      dispatchAux p load_profile pvsyst_profile wind_profile
        (dispatchStep p h (load_profile.getD h 0) (pvsyst_profile.getD h 0)
          (wind_profile.getD h 0) current_soc).1
        (h + 1) n

/-- Embeds `calculate_dispatch_with_hydro`.  `hours = len(load_profile)`;
the initial SOC is fixed at 50% of the battery energy capacity.
`hydro_config` is received but never read — the source removed the
`enabled` check from the hydro dispatch condition. -/
def calculate_dispatch_with_hydro
    (load_profile pvsyst_profile wind_profile : List ℚ)
    (pv_capacity wind_capacity hydro_capacity bess_power bess_capacity : ℚ)
    (solar_config : SolarConfig) (wind_config : WindConfig)
    (hydro_config : HydroConfig) (bess_config : BessConfig)
    (hydro_window_start hydro_window_end : ℕ) : List HourRecord :=
  dispatchAux
    (dispatchParamsOf pv_capacity wind_capacity hydro_capacity bess_power bess_capacity
      solar_config wind_config bess_config hydro_window_start hydro_window_end)
    load_profile pvsyst_profile wind_profile
    ((1 / 2) * bess_capacity) 0 load_profile.length

/-! Hydro window search (`find_optimal_hydro_window`). -/

/-- Left fold keeping the running best element; a later element replaces
the current best only when its key is strictly smaller, so the first
minimal element wins — the semantics of Python `min(..., key=...)` and of
pandas `idxmin`. -/
def minBy {α : Type} (key : α → ℚ) : α → List α → α
  | best, [] => best
  | best, x :: xs => minBy key (if key x < key best then x else best) xs

/-- `Option`-valued first-minimum of a list (`none` on the empty list,
where Python `min` raises `ValueError`). -/
def listMin {α : Type} (key : α → ℚ) : List α → Option α
  | [] => none
  | x :: xs => some (minBy key x xs)

/-- One iteration of the window loop in `find_optimal_hydro_window`: run
the full dispatch for the window `[start_hour, start_hour + hours_per_day)`
and compute its unmet-load percentage
(`total_unmet / total_load * 100`, or 0 when the total load is not
positive).  Returns the `(start_hour, end_hour, unmet_percent)` record. -/
def hydro_window_eval
    (load_profile pvsyst_profile wind_profile : List ℚ)
    (pv_capacity wind_capacity hydro_capacity bess_power bess_capacity : ℚ)
    (solar_config : SolarConfig) (wind_config : WindConfig)
    (hydro_config : HydroConfig) (bess_config : BessConfig)
    (start_hour : ℕ) : ℕ × ℕ × ℚ :=
  let end_hour := start_hour + hydro_config.hours_per_day
  let dispatch := calculate_dispatch_with_hydro load_profile pvsyst_profile wind_profile
    pv_capacity wind_capacity hydro_capacity bess_power bess_capacity
    solar_config wind_config hydro_config bess_config start_hour end_hour
  let total_load := (dispatch.map HourRecord.load).sum
  let total_unmet := (dispatch.map HourRecord.unmet).sum
  let unmet_percent := if 0 < total_load then total_unmet / total_load * 100 else 0
  (start_hour, end_hour, unmet_percent)

/-- Embeds `find_optimal_hydro_window` (main path, `return_all_windows =
False`): evaluate every window start in `range(24 - hours_per_day + 1)`
and return the first window minimizing the unmet-load percentage.
`24 + 1 - hours_per_day` equals the Python bound for `hours_per_day ≤ 24`;
for larger values both the source (`min` of an empty list) and the model
(`none`) produce no window. -/
def find_optimal_hydro_window
    (load_profile pvsyst_profile wind_profile : List ℚ)
    (pv_capacity wind_capacity hydro_capacity bess_power bess_capacity : ℚ)
    (solar_config : SolarConfig) (wind_config : WindConfig)
    (hydro_config : HydroConfig) (bess_config : BessConfig) : Option (ℕ × ℕ × ℚ) :=
  listMin (fun w => w.2.2)
    ((List.range (24 + 1 - hydro_config.hours_per_day)).map
      (hydro_window_eval load_profile pvsyst_profile wind_profile
        pv_capacity wind_capacity hydro_capacity bess_power bess_capacity
        solar_config wind_config hydro_config bess_config))

/-! Grid range generation (`generate_range_with_endpoint`). -/

/-- The `while current <= end` accumulation loop of
`generate_range_with_endpoint`.  The guard `0 < step` makes the recursion
terminate; for `step ≤ 0` the source loop diverges whenever
`current <= end`, and the model returns `[]` there (unreachable under the
claims' `step > 0` hypothesis). -/
def genLoop (endv step : ℚ) (current : ℚ) : List ℚ :=
  if h1 : 0 < step then
    if h2 : current ≤ endv then current :: genLoop endv step (current + step) else []
  else []
termination_by (Int.ceil ((endv - current) / step) + 1).toNat
decreasing_by
  have hdiv : 0 ≤ (endv - current) / step := div_nonneg (by linarith) (le_of_lt h1)
  have hceil : 0 ≤ Int.ceil ((endv - current) / step) := Int.ceil_nonneg hdiv
  have harg : (endv - (current + step)) / step = (endv - current) / step - 1 := by
    field_simp
    ring
  rw [harg, Int.ceil_sub_one]
  omega

/-- Embeds `generate_range_with_endpoint`: step from `start` while
`current <= end`, then append `end` unless it is already the last value.
On an empty accumulation (only possible when `end < start`, given
`step > 0`) the source raises `IndexError` at `values[-1]`; the model
returns `[]`. -/
def generate_range_with_endpoint (start endv step : ℚ) : List ℚ :=
  let values := genLoop endv step start
  match values.getLast? with
  | none => []
  | some last => if last = endv then values else values ++ [endv]

/-! Solution selection (`find_optimal_solution`). -/

/-- The per-candidate fields of a grid-search result row that
`find_optimal_solution` reads: the feasibility flag and the system NPC
(`Iteration` is carried as the row's identity). -/
structure ResultRow where
  iteration : ℕ
  feasible : Bool
  npc : ℚ
deriving DecidableEq

/-- Embeds `find_optimal_solution`: restrict to rows with
`Feasible == True`; `None` when that set is empty, else the row attaining
the minimum `NPC_$` (pandas `idxmin` keeps the first minimum). -/
def find_optimal_solution (results : List ResultRow) : Option ResultRow :=
  listMin (fun r => r.npc) (results.filter (fun r => r.feasible))

/-! Helper lemmas about the dispatch step and loop. -/

/-- The SOC recorded in an hour's row is the returned (clamped) SOC. -/
theorem dispatchStep_snd_bess_soc (p : DispatchParams) (h : ℕ) (load pvsyst_h wind_h soc : ℚ) :
    ∃ x, (dispatchStep p h load pvsyst_h wind_h soc).2.bess_soc =
      max p.min_soc_kwh (min x p.max_soc_kwh) := by
  unfold dispatchStep
  dsimp only
  repeat' split
  all_goals exact ⟨_, rfl⟩

/-- In every hour's row, unmet and excess are nonnegative and at least one
of them is exactly zero (each branch of the loop writes only one of
them). -/
theorem dispatchStep_unmet_excess (p : DispatchParams) (h : ℕ) (load pvsyst_h wind_h soc : ℚ) :
    0 ≤ (dispatchStep p h load pvsyst_h wind_h soc).2.unmet ∧
    0 ≤ (dispatchStep p h load pvsyst_h wind_h soc).2.excess ∧
    ((dispatchStep p h load pvsyst_h wind_h soc).2.unmet = 0 ∨
     (dispatchStep p h load pvsyst_h wind_h soc).2.excess = 0) := by
  unfold dispatchStep
  dsimp only
  repeat' split
  all_goals first
  | exact ⟨le_max_left 0 _, le_refl 0, Or.inr rfl⟩
  | exact ⟨le_refl 0, le_max_left 0 _, Or.inl rfl⟩

/-- With the wind flag off, the recorded wind output of every hour is
zero. -/
theorem dispatchStep_wind_output (p : DispatchParams) (h : ℕ) (load pvsyst_h wind_h soc : ℚ)
    (hw : p.wind_enabled = false) :
    (dispatchStep p h load pvsyst_h wind_h soc).2.wind_output = 0 := by
  unfold dispatchStep
  dsimp only
  rw [hw]
  simp only [Bool.false_eq_true, if_false, mul_zero, zero_mul]
  repeat' split
  all_goals rfl

/-- The recorded hydro output of an hour depends only on that hour's
inputs (not on the battery state) and follows `hydroOutFormula`. -/
theorem dispatchStep_hydro_output (p : DispatchParams) (h : ℕ) (load pvsyst_h wind_h soc : ℚ) :
    (dispatchStep p h load pvsyst_h wind_h soc).2.hydro_output =
      hydroOutFormula p h load pvsyst_h wind_h := by
  unfold dispatchStep hydroOutFormula
  dsimp only
  repeat' split
  all_goals rfl

/-- Every row produced by the dispatch loop is the row of some
`dispatchStep` application. -/
theorem dispatchAux_mem (p : DispatchParams) (L PV W : List ℚ) :
    ∀ n soc h rec, rec ∈ dispatchAux p L PV W soc h n →
      ∃ j s, rec = (dispatchStep p j (L.getD j 0) (PV.getD j 0) (W.getD j 0) s).2 := by
  intro n
  induction n with
  | zero => intro soc h rec hrec; simp [dispatchAux] at hrec
  | succ n ih =>
    intro soc h rec hrec
    rw [dispatchAux] at hrec
    rcases List.mem_cons.mp hrec with hhead | htail
    · exact ⟨h, soc, hhead⟩
    · exact ih _ _ rec htail

/-- Positional form: the `i`-th row of the dispatch loop started at hour
`h` is the `dispatchStep` row of hour `h + i` at some battery state. -/
theorem dispatchAux_getD (p : DispatchParams) (L PV W : List ℚ) :
    ∀ n h soc i, i < n →
      ∃ s, (dispatchAux p L PV W soc h n).getD i hr0 =
        (dispatchStep p (h + i) (L.getD (h + i) 0) (PV.getD (h + i) 0) (W.getD (h + i) 0) s).2 := by
  intro n
  induction n with
  | zero => intro h soc i hi; omega
  | succ n ih =>
    intro h soc i hi
    cases i with
    | zero => exact ⟨soc, by rw [dispatchAux]; rfl⟩
    | succ j =>
      obtain ⟨s, hs⟩ := ih (h + 1)
        ((dispatchStep p h (L.getD h 0) (PV.getD h 0) (W.getD h 0) soc).1) j (by omega)
      refine ⟨s, ?_⟩
      rw [dispatchAux]
      have harith : h + 1 + j = h + (j + 1) := by omega
      simpa [harith] using hs

/-! Helper lemmas about the first-minimum reduction. -/

/-- The running-best fold returns the initial best or a list element. -/
theorem minBy_mem {α : Type} (key : α → ℚ) :
    ∀ (xs : List α) (best : α), minBy key best xs ∈ best :: xs := by
  intro xs
  induction xs with
  | nil => intro best; simp [minBy]
  | cons x xs ih =>
    intro best
    rw [minBy]
    by_cases hlt : key x < key best
    · rw [if_pos hlt]
      exact List.mem_cons_of_mem _ (ih x)
    · rw [if_neg hlt]
      rcases List.mem_cons.mp (ih best) with h | h
      · rw [h]; exact List.mem_cons_self _ _
      · exact List.mem_cons_of_mem _ (List.mem_cons_of_mem _ h)

/-- The running-best fold attains the minimum key over the best and the
list. -/
theorem minBy_le {α : Type} (key : α → ℚ) :
    ∀ (xs : List α) (best : α), ∀ x ∈ best :: xs, key (minBy key best xs) ≤ key x := by
  intro xs
  induction xs with
  | nil =>
    intro best x hx
    rcases List.mem_cons.mp hx with h | h
    · rw [h]; exact le_refl _
    · simp at h
  | cons y ys ih =>
    intro best x hx
    rw [minBy]
    by_cases hlt : key y < key best
    · rw [if_pos hlt]
      rcases List.mem_cons.mp hx with h | h
      · rw [h]
        exact le_trans (ih y y (List.mem_cons_self _ _)) (le_of_lt hlt)
      · exact ih y x h
    · rw [if_neg hlt]
      rcases List.mem_cons.mp hx with h | h
      · rw [h]; exact ih best best (List.mem_cons_self _ _)
      · rcases List.mem_cons.mp h with h2 | h2
        · rw [h2]
          exact le_trans (ih best best (List.mem_cons_self _ _)) (not_lt.mp hlt)
        · exact ih best x (List.mem_cons_of_mem _ h2)

/-- Appending one element to the scanned list compares it against the fold
of the prefix. -/
theorem minBy_append_singleton {α : Type} (key : α → ℚ) :
    ∀ (xs : List α) (best x : α), minBy key best (xs ++ [x]) =
      if key x < key (minBy key best xs) then x else minBy key best xs := by
  intro xs
  induction xs with
  | nil => intro best x; simp [minBy]
  | cons y ys ih =>
    intro best x
    simp only [List.cons_append, minBy]
    exact ih _ x

/-- `listMin` over a list extended by one element. -/
theorem listMin_append_singleton {α : Type} (key : α → ℚ) (l : List α) (x m : α)
    (hm : listMin key l = some m) :
    listMin key (l ++ [x]) = some (if key x < key m then x else m) := by
  cases l with
  | nil => simp [listMin] at hm
  | cons a t =>
    rw [listMin] at hm
    have hm2 : minBy key a t = m := Option.some_injective _ hm
    rw [List.cons_append, listMin, minBy_append_singleton, hm2]

/-- The first-minimum reduction of `f` over `range n`: it returns `f s`
for the least start `s` attaining the minimal key. -/
theorem listMin_map_range {α : Type} (key : α → ℚ) (f : ℕ → α) :
    ∀ n : ℕ, 0 < n → ∃ s, s < n ∧
      listMin key (List.map f (List.range n)) = some (f s) ∧
      (∀ t, t < n → key (f s) ≤ key (f t)) ∧
      (∀ t, t < s → key (f s) < key (f t)) := by
  intro n
  induction n with
  | zero => intro h; omega
  | succ n ih =>
    intro _
    by_cases hn : 0 < n
    · obtain ⟨s, hs, heq, hmin, hfirst⟩ := ih hn
      rw [List.range_succ, List.map_append, List.map_cons, List.map_nil]
      by_cases hlt : key (f n) < key (f s)
      · refine ⟨n, by omega, ?_, ?_, ?_⟩
        · rw [listMin_append_singleton key _ _ _ heq, if_pos hlt]
        · intro t ht
          rcases (by omega : t < n ∨ t = n) with h | h
          · exact le_trans (le_of_lt hlt) (hmin t h)
          · rw [h]
        · intro t ht
          exact lt_of_lt_of_le hlt (hmin t ht)
      · refine ⟨s, by omega, ?_, ?_, hfirst⟩
        · rw [listMin_append_singleton key _ _ _ heq, if_neg hlt]
        · intro t ht
          rcases (by omega : t < n ∨ t = n) with h | h
          · exact hmin t h
          · rw [h]; exact not_lt.mp hlt
    · have hn0 : n = 0 := by omega
      subst hn0
      refine ⟨0, by omega, ?_, ?_, ?_⟩
      · simp [List.range_succ, listMin, minBy]
      · intro t ht
        have ht0 : t = 0 := by omega
        rw [ht0]
      · intro t ht; omega

/-! Helper lemmas about the replacement-cost loop. -/

/-- Closed form of the replacement loop started at the `m`-th multiple of
the component lifetime: the discounted replacement cost summed over every
`k ≥ m` with `k * component_lifetime < project_lifetime`. -/
theorem replacement_loop_eq_sum (rc rate : ℚ) (life pl : ℕ) (hl : 0 < life) :
    ∀ m : ℕ, replacement_loop rc rate life pl (m * life) =
      ∑ k in (Finset.Ico m pl).filter (fun k => k * life < pl),
        rc / (1 + rate) ^ (k * life) := by
  suffices hd : ∀ d m : ℕ, pl - m * life < d →
      replacement_loop rc rate life pl (m * life) =
        ∑ k in (Finset.Ico m pl).filter (fun k => k * life < pl),
          rc / (1 + rate) ^ (k * life) by
    intro m
    exact hd (pl + 1) m (by omega)
  intro d
  induction d with
  | zero => intro m hm; omega
  | succ d ih =>
    intro m hm
    by_cases hterm : pl ≤ m * life
    · rw [replacement_loop, dif_pos (Or.inr hterm)]
      have hempty : (Finset.Ico m pl).filter (fun k => k * life < pl) = ∅ := by
        apply Finset.eq_empty_of_forall_not_mem
        intro k hk
        rw [Finset.mem_filter, Finset.mem_Ico] at hk
        have hmk : m * life ≤ k * life := Nat.mul_le_mul_right life hk.1.1
        omega
      rw [hempty, Finset.sum_empty]
    · push_neg at hterm
      have hmlt : m < pl := lt_of_le_of_lt (Nat.le_mul_of_pos_right m hl) hterm
      have hmul : m * life + life = (m + 1) * life := by ring
      rw [replacement_loop, dif_neg (by push_neg; exact ⟨by omega, by omega⟩), hmul,
        ih (m + 1) (by
          have h2 : (m + 1) * life = m * life + life := by ring
          omega)]
      have hins : (Finset.Ico m pl).filter (fun k => k * life < pl) =
          insert m ((Finset.Ico (m + 1) pl).filter (fun k => k * life < pl)) := by
        ext k
        simp only [Finset.mem_filter, Finset.mem_Ico, Finset.mem_insert]
        constructor
        · rintro ⟨⟨hk1, hk2⟩, hk3⟩
          rcases Nat.eq_or_lt_of_le hk1 with h | h
          · exact Or.inl h.symm
          · exact Or.inr ⟨⟨h, hk2⟩, hk3⟩
        · rintro (h | ⟨⟨hk1, hk2⟩, hk3⟩)
          · rw [h]; exact ⟨⟨le_refl m, hmlt⟩, hterm⟩
          · exact ⟨⟨by omega, hk2⟩, hk3⟩
      rw [hins, Finset.sum_insert (by
        intro hmem
        rw [Finset.mem_filter, Finset.mem_Ico] at hmem
        omega)]

/-- A zero replacement cost sums to zero for any starting year reachable
as a multiple of the lifetime. -/
theorem calculate_replacement_cost_pv_zero_capital (life pl : ℕ) (rate mult : ℚ)
    (hl : 0 < life) :
    calculate_replacement_cost_pv 0 life pl rate mult = 0 := by
  unfold calculate_replacement_cost_pv
  split
  · rfl
  · have hsum := replacement_loop_eq_sum 0 rate life pl hl 1
    rw [one_mul] at hsum
    rw [zero_mul, hsum]
    apply Finset.sum_eq_zero
    intro k _
    rw [zero_div]

/-! Helper lemmas about the range-generation loop. -/

/-- As long as the step is positive and the current value has not passed
the endpoint, the loop emits the current value first. -/
theorem genLoop_cons (endv step current : ℚ) (hstep : 0 < step) (hle : current ≤ endv) :
    genLoop endv step current = current :: genLoop endv step (current + step) := by
  rw [genLoop, dif_pos hstep, dif_pos hle]

/-- Once the current value passes the endpoint, the loop stops. -/
theorem genLoop_nil (endv step current : ℚ) (hgt : endv < current) :
    genLoop endv step current = [] := by
  rw [genLoop]
  by_cases h : 0 < step
  · rw [dif_pos h, dif_neg (not_le.mpr hgt)]
  · rw [dif_neg h]

/-- An in-range positional read of a list is a member of it. -/
theorem getD_mem_of_lt {α : Type} (l : List α) (n : ℕ) (d : α) (h : n < l.length) :
    l.getD n d ∈ l := by
  rw [List.getD_eq_getElem l d h]
  exact List.getElem_mem h

/-- The dispatch loop emits one row per requested hour. -/
theorem dispatchAux_length (p : DispatchParams) (L PV W : List ℚ) :
    ∀ n soc h, (dispatchAux p L PV W soc h n).length = n := by
  intro n
  induction n with
  | zero => intro soc h; rw [dispatchAux]; rfl
  | succ n ih =>
    intro soc h
    rw [dispatchAux, List.length_cons, ih]

/-- The dispatch simulation emits one row per hour of the load profile. -/
theorem calculate_dispatch_with_hydro_length
    (L PV W : List ℚ) (pvc wc hc bp bcap : ℚ)
    (sc : SolarConfig) (wcf : WindConfig) (hcf : HydroConfig) (bcf : BessConfig) (ws we : ℕ) :
    (calculate_dispatch_with_hydro L PV W pvc wc hc bp bcap sc wcf hcf bcf ws we).length
      = L.length := by
  rw [calculate_dispatch_with_hydro]
  exact dispatchAux_length _ _ _ _ _ _ _

/-! Claim theorems. -/

/-- C7: for every positive lifetime `n`, the capital recovery factor at
zero discount rate is exactly `1/n` and the present value factor at zero
rate is exactly `n`; both are given by the explicit zero-rate branch, so
no division by the vanishing denominator `(1+0)^n - 1` occurs. -/
theorem C7_zero_rate (n : ℕ) (hn : 0 < n) :
    calculate_crf 0 n = 1 / (n : ℚ) ∧ calculate_present_value_factor 0 n = (n : ℚ) := by
  constructor
  · rw [calculate_crf, if_pos rfl]
  · rw [calculate_present_value_factor, if_pos rfl]

/-- Witness for C7 at `n = 3`. -/
theorem C7_zero_rate_witness :
    0 < 3 ∧ calculate_crf 0 3 = 1 / (3 : ℚ) ∧ calculate_present_value_factor 0 3 = (3 : ℚ) :=
  ⟨by norm_num, C7_zero_rate 3 (by norm_num)⟩

/-- C6: `calculate_replacement_cost_pv` (with the source's default
multiplier `0.8 = 4/5`) returns exactly 0 whenever the component lifetime
is at least the project lifetime; otherwise, for positive lifetimes and
rate above `-1`, it returns the sum over every positive multiple
`k * component_life` strictly below `project_life` of
`(capital * 0.8) / (1+rate)^(k * component_life)`. -/
theorem C6_replacement_cost_pv (capital rate : ℚ) (life pl : ℕ) :
    (pl ≤ life → calculate_replacement_cost_pv capital life pl rate (4 / 5) = 0) ∧
    (0 < life → 0 < pl → life < pl → -1 < rate →
      calculate_replacement_cost_pv capital life pl rate (4 / 5) =
        ∑ k in (Finset.range pl).filter (fun k => 0 < k ∧ k * life < pl),
          (capital * (4 / 5)) / (1 + rate) ^ (k * life)) := by
  constructor
  · intro h
    rw [calculate_replacement_cost_pv, if_pos h]
  · intro hl hp hlt hr
    rw [calculate_replacement_cost_pv, if_neg (by omega)]
    have hsum := replacement_loop_eq_sum (capital * (4 / 5)) rate life pl hl 1
    rw [one_mul] at hsum
    rw [hsum]
    apply Finset.sum_congr
    · ext k
      simp only [Finset.mem_filter, Finset.mem_range, Finset.mem_Ico]
      constructor
      · rintro ⟨⟨hk1, hk2⟩, hk3⟩
        exact ⟨hk2, hk1, hk3⟩
      · rintro ⟨hk2, hk1, hk3⟩
        exact ⟨⟨hk1, hk2⟩, hk3⟩
    · intro k _
      rfl

/-- Witness for C6: a no-replacement case (`life = 5 ≥ 3 = project`) and a
summed case (`life = 2 < 5 = project`, rate 0). -/
theorem C6_replacement_cost_pv_witness :
    calculate_replacement_cost_pv 7 5 3 (1 / 10) (4 / 5) = 0 ∧
    calculate_replacement_cost_pv 1 2 5 0 (4 / 5) =
      ∑ k in (Finset.range 5).filter (fun k => 0 < k ∧ k * 2 < 5),
        ((1 : ℚ) * (4 / 5)) / (1 + 0) ^ (k * 2) :=
  ⟨(C6_replacement_cost_pv 7 (1 / 10) 5 3).1 (by norm_num),
   (C6_replacement_cost_pv 1 0 2 5).2 (by norm_num) (by norm_num) (by norm_num) (by norm_num)⟩

/-- C8: with zero capital and zero annual O&M, the HOMER component NPC and
its annualized cost are both exactly zero, for every positive component
and project lifetime and every rate above `-1`. -/
theorem C8_zero_capacity_npc (life pl : ℕ) (rate : ℚ)
    (hl : 0 < life) (hp : 0 < pl) (hr : -1 < rate) :
    (calculate_component_npc_homer 0 0 life pl rate (4 / 5)).npc = 0 ∧
    (calculate_component_npc_homer 0 0 life pl rate (4 / 5)).annualized = 0 := by
  have hrep : calculate_replacement_cost_pv 0 life pl rate (4 / 5) = 0 :=
    calculate_replacement_cost_pv_zero_capital life pl rate (4 / 5) hl
  have hsal : calculate_salvage_value 0 life pl 0 = 0 := by
    simp only [calculate_salvage_value]
    split
    · rfl
    · rw [zero_mul]
  constructor
  · simp [calculate_component_npc_homer, hrep, hsal]
  · simp [calculate_component_npc_homer, hrep, hsal]

/-- Witness for C8 at `life = 2`, `project = 5`, `rate = 1/10`. -/
theorem C8_zero_capacity_npc_witness :
    0 < 2 ∧ 0 < 5 ∧ -1 < (1 / 10 : ℚ) ∧
    (calculate_component_npc_homer 0 0 2 5 (1 / 10) (4 / 5)).npc = 0 ∧
    (calculate_component_npc_homer 0 0 2 5 (1 / 10) (4 / 5)).annualized = 0 :=
  ⟨by norm_num, by norm_num, by norm_num,
   C8_zero_capacity_npc 2 5 (1 / 10) (by norm_num) (by norm_num) (by norm_num)⟩

/-- C4: for `start ≤ end` and `step > 0`, the generated capacity list
contains both `start` and `end`, and the concrete instance
`start = 0, end = 5, step = 2` generates exactly `[0, 2, 4, 5]`. -/
theorem C4_range_includes_endpoints (start endv step : ℚ) (hse : start ≤ endv) (hstep : 0 < step) :
    start ∈ generate_range_with_endpoint start endv step ∧
    endv ∈ generate_range_with_endpoint start endv step ∧
    generate_range_with_endpoint 0 5 2 = [0, 2, 4, 5] := by
  have hcons := genLoop_cons endv step start hstep hse
  have hne : genLoop endv step start ≠ [] := by
    rw [hcons]; exact List.cons_ne_nil _ _
  have hstart : start ∈ genLoop endv step start := by
    rw [hcons]; exact List.mem_cons_self _ _
  have hlast := List.getLast?_eq_getLast_of_ne_nil hne
  have hgen : generate_range_with_endpoint start endv step =
      if (genLoop endv step start).getLast hne = endv then genLoop endv step start
      else genLoop endv step start ++ [endv] := by
    simp only [generate_range_with_endpoint]
    rw [hlast]
  refine ⟨?_, ?_, ?_⟩
  · rw [hgen]
    by_cases heq : (genLoop endv step start).getLast hne = endv
    · rw [if_pos heq]; exact hstart
    · rw [if_neg heq]; exact List.mem_append_left _ hstart
  · rw [hgen]
    by_cases heq : (genLoop endv step start).getLast hne = endv
    · rw [if_pos heq]
      have hmem := List.getLast_mem hne
      rw [heq] at hmem
      exact hmem
    · rw [if_neg heq]
      exact List.mem_append_right _ (List.mem_singleton.mpr rfl)
  · have h6 : genLoop 5 2 6 = [] := genLoop_nil 5 2 6 (by norm_num)
    have h4 : genLoop 5 2 4 = [4] := by
      rw [genLoop_cons 5 2 4 (by norm_num) (by norm_num),
        show (4 : ℚ) + 2 = 6 from by norm_num, h6]
    have h2 : genLoop 5 2 2 = [2, 4] := by
      rw [genLoop_cons 5 2 2 (by norm_num) (by norm_num),
        show (2 : ℚ) + 2 = 4 from by norm_num, h4]
    have h0 : genLoop 5 2 0 = [0, 2, 4] := by
      rw [genLoop_cons 5 2 0 (by norm_num) (by norm_num),
        show (0 : ℚ) + 2 = 2 from by norm_num, h2]
    rw [generate_range_with_endpoint]
    rw [h0]
    norm_num

/-- Witness for C4 at `start = 0, end = 5, step = 2`. -/
theorem C4_range_includes_endpoints_witness :
    (0 : ℚ) ∈ generate_range_with_endpoint 0 5 2 ∧
    (5 : ℚ) ∈ generate_range_with_endpoint 0 5 2 ∧
    generate_range_with_endpoint 0 5 2 = [0, 2, 4, 5] :=
  C4_range_includes_endpoints 0 5 2 (by norm_num) (by norm_num)

/-- C2: in every hour of every dispatch simulation, the recorded unmet
load and excess energy are nonnegative, and never both strictly positive
in the same hour. -/
theorem C2_unmet_excess_signs
    (L PV W : List ℚ) (pvc wc hc bp bcap : ℚ)
    (sc : SolarConfig) (wcf : WindConfig) (hcf : HydroConfig) (bcf : BessConfig) (ws we : ℕ) :
    ∀ rec ∈ calculate_dispatch_with_hydro L PV W pvc wc hc bp bcap sc wcf hcf bcf ws we,
      0 ≤ rec.unmet ∧ 0 ≤ rec.excess ∧ ¬(0 < rec.unmet ∧ 0 < rec.excess) := by
  intro rec hrec
  rw [calculate_dispatch_with_hydro] at hrec
  obtain ⟨j, s, hjs⟩ := dispatchAux_mem _ _ _ _ _ _ _ rec hrec
  rw [hjs]
  obtain ⟨hu, he, hz⟩ := dispatchStep_unmet_excess _ j _ _ _ s
  refine ⟨hu, he, ?_⟩
  rintro ⟨hu2, he2⟩
  rcases hz with h | h
  · rw [h] at hu2; exact lt_irrefl 0 hu2
  · rw [h] at he2; exact lt_irrefl 0 he2

/-- Witness for C2 on a one-hour run with a bare 100 kW load. -/
theorem C2_unmet_excess_signs_witness :
    0 ≤ ((calculate_dispatch_with_hydro [100] [0] [0] 0 0 0 0 0
      ⟨1⟩ ⟨false⟩ ⟨true, 8⟩ ⟨1, 1, 0, 1⟩ 0 8).getD 0 hr0).unmet ∧
    0 ≤ ((calculate_dispatch_with_hydro [100] [0] [0] 0 0 0 0 0
      ⟨1⟩ ⟨false⟩ ⟨true, 8⟩ ⟨1, 1, 0, 1⟩ 0 8).getD 0 hr0).excess ∧
    ¬(0 < ((calculate_dispatch_with_hydro [100] [0] [0] 0 0 0 0 0
        ⟨1⟩ ⟨false⟩ ⟨true, 8⟩ ⟨1, 1, 0, 1⟩ 0 8).getD 0 hr0).unmet ∧
      0 < ((calculate_dispatch_with_hydro [100] [0] [0] 0 0 0 0 0
        ⟨1⟩ ⟨false⟩ ⟨true, 8⟩ ⟨1, 1, 0, 1⟩ 0 8).getD 0 hr0).excess) :=
  C2_unmet_excess_signs [100] [0] [0] 0 0 0 0 0 ⟨1⟩ ⟨false⟩ ⟨true, 8⟩ ⟨1, 1, 0, 1⟩ 0 8 _
    (getD_mem_of_lt _ 0 hr0 (by
      rw [calculate_dispatch_with_hydro_length]
      norm_num))

/-- C10: when the wind configuration is disabled, every recorded hourly
wind output is zero, whatever the wind capacity and reference profile. -/
theorem C10_wind_disabled_zero_output
    (L PV W : List ℚ) (pvc wc hc bp bcap : ℚ)
    (sc : SolarConfig) (wcf : WindConfig) (hcf : HydroConfig) (bcf : BessConfig) (ws we : ℕ)
    (hw : wcf.enabled = false) :
    ∀ rec ∈ calculate_dispatch_with_hydro L PV W pvc wc hc bp bcap sc wcf hcf bcf ws we,
      rec.wind_output = 0 := by
  intro rec hrec
  rw [calculate_dispatch_with_hydro] at hrec
  obtain ⟨j, s, hjs⟩ := dispatchAux_mem _ _ _ _ _ _ _ rec hrec
  rw [hjs]
  exact dispatchStep_wind_output _ j _ _ _ s (by rw [dispatchParamsOf, hw])

/-- Witness for C10: wind disabled with nonzero wind capacity (3 kW) and a
nonzero wind reference value (7 kW). -/
theorem C10_wind_disabled_zero_output_witness :
    ((calculate_dispatch_with_hydro [5] [0] [7] 0 3 0 0 0
      ⟨1⟩ ⟨false⟩ ⟨true, 8⟩ ⟨1, 1, 0, 1⟩ 0 8).getD 0 hr0).wind_output = 0 :=
  C10_wind_disabled_zero_output [5] [0] [7] 0 3 0 0 0 ⟨1⟩ ⟨false⟩ ⟨true, 8⟩ ⟨1, 1, 0, 1⟩ 0 8 rfl _
    (getD_mem_of_lt _ 0 hr0 (by
      rw [calculate_dispatch_with_hydro_length]
      norm_num))

/-- C1 (amended): with `0 ≤ min_soc ≤ max_soc` and battery energy
capacity `≥ 0`, every recorded SOC lies in
`[min_soc * capacity, max_soc * capacity]` and is nonnegative; the
further bound `soc ≤ capacity` claimed by the spec additionally requires
`max_soc ≤ 1` (the counterexample `C1_soc_bounds_counterexample` shows it
fails for `max_soc > 1`). -/
theorem C1_soc_bounds
    (L PV W : List ℚ) (pvc wc hc bp bcap : ℚ)
    (sc : SolarConfig) (wcf : WindConfig) (hcf : HydroConfig) (bcf : BessConfig) (ws we : ℕ)
    (h0 : 0 ≤ bcf.min_soc) (h1 : bcf.min_soc ≤ bcf.max_soc) (h3 : 0 ≤ bcap) :
    ∀ rec ∈ calculate_dispatch_with_hydro L PV W pvc wc hc bp bcap sc wcf hcf bcf ws we,
      bcf.min_soc * bcap ≤ rec.bess_soc ∧ rec.bess_soc ≤ bcf.max_soc * bcap ∧
      0 ≤ rec.bess_soc ∧ (bcf.max_soc ≤ 1 → rec.bess_soc ≤ bcap) := by
  intro rec hrec
  rw [calculate_dispatch_with_hydro] at hrec
  obtain ⟨j, s, hjs⟩ := dispatchAux_mem _ _ _ _ _ _ _ rec hrec
  rw [hjs]
  obtain ⟨x, hx⟩ := dispatchStep_snd_bess_soc
    (dispatchParamsOf pvc wc hc bp bcap sc wcf bcf ws we) j _ _ _ s
  rw [hx]
  simp only [dispatchParamsOf]
  have hmm : bcf.min_soc * bcap ≤ bcf.max_soc * bcap := mul_le_mul_of_nonneg_right h1 h3
  have hup : max (bcf.min_soc * bcap) (min x (bcf.max_soc * bcap)) ≤ bcf.max_soc * bcap :=
    max_le hmm (min_le_right _ _)
  refine ⟨le_max_left _ _, hup, ?_, ?_⟩
  · exact le_trans (mul_nonneg h0 h3) (le_max_left _ _)
  · intro h2
    have hcap : bcf.max_soc * bcap ≤ bcap := by
      calc bcf.max_soc * bcap ≤ 1 * bcap := mul_le_mul_of_nonneg_right h2 h3
      _ = bcap := one_mul bcap
    exact le_trans hup hcap

/-- Witness for C1 on a one-hour run with `min_soc = 1/10`,
`max_soc = 9/10`, capacity 10. -/
theorem C1_soc_bounds_witness :
    (1 / 10 : ℚ) * 10 ≤ ((calculate_dispatch_with_hydro [100] [0] [0] 0 0 0 5 10
      ⟨1⟩ ⟨false⟩ ⟨true, 8⟩ ⟨1, 1, 1 / 10, 9 / 10⟩ 0 8).getD 0 hr0).bess_soc ∧
    ((calculate_dispatch_with_hydro [100] [0] [0] 0 0 0 5 10
      ⟨1⟩ ⟨false⟩ ⟨true, 8⟩ ⟨1, 1, 1 / 10, 9 / 10⟩ 0 8).getD 0 hr0).bess_soc ≤ (9 / 10 : ℚ) * 10 ∧
    0 ≤ ((calculate_dispatch_with_hydro [100] [0] [0] 0 0 0 5 10
      ⟨1⟩ ⟨false⟩ ⟨true, 8⟩ ⟨1, 1, 1 / 10, 9 / 10⟩ 0 8).getD 0 hr0).bess_soc ∧
    ((9 / 10 : ℚ) ≤ 1 → ((calculate_dispatch_with_hydro [100] [0] [0] 0 0 0 5 10
      ⟨1⟩ ⟨false⟩ ⟨true, 8⟩ ⟨1, 1, 1 / 10, 9 / 10⟩ 0 8).getD 0 hr0).bess_soc ≤ 10) :=
  C1_soc_bounds [100] [0] [0] 0 0 0 5 10 ⟨1⟩ ⟨false⟩ ⟨true, 8⟩ ⟨1, 1, 1 / 10, 9 / 10⟩ 0 8
    (by norm_num) (by norm_num) (by norm_num) _
    (getD_mem_of_lt _ 0 hr0 (by
      rw [calculate_dispatch_with_hydro_length]
      norm_num))

/-- Counterexample to C1 as stated: the run below satisfies the claim's
hypotheses (`0 ≤ min_soc = 0 ≤ max_soc = 2`, capacity `= 1 ≥ 0`), yet the
recorded SOC of hour 0 is 2, which exceeds the battery energy capacity 1 —
the parenthetical `bess_soc ≤ capacity` of the claim fails because the
clamp only enforces `bess_soc ≤ max_soc * capacity`. -/
theorem C1_soc_bounds_counterexample :
    (0 : ℚ) ≤ 0 ∧ (0 : ℚ) ≤ 2 ∧ (0 : ℚ) ≤ 1 ∧
    ((calculate_dispatch_with_hydro [0] [10] [0] 1 0 0 5 1
      ⟨1⟩ ⟨false⟩ ⟨false, 8⟩ ⟨1, 1, 0, 2⟩ 0 0).getD 0 hr0).bess_soc = 2 ∧
    ¬(((calculate_dispatch_with_hydro [0] [10] [0] 1 0 0 5 1
      ⟨1⟩ ⟨false⟩ ⟨false, 8⟩ ⟨1, 1, 0, 2⟩ 0 0).getD 0 hr0).bess_soc ≤ 1) := by
  have heval : ((calculate_dispatch_with_hydro [0] [10] [0] 1 0 0 5 1
      ⟨1⟩ ⟨false⟩ ⟨false, 8⟩ ⟨1, 1, 0, 2⟩ 0 0).getD 0 hr0).bess_soc = 2 := by
    rw [calculate_dispatch_with_hydro]
    simp only [List.length_cons, List.length_nil, dispatchAux, List.getD_cons_zero]
    norm_num [dispatchStep, dispatchParamsOf]
  refine ⟨le_refl 0, by norm_num, by norm_num, heval, ?_⟩
  rw [heval]
  norm_num

/-- C9: the dispatch simulator never reads the hydro `enabled` flag — two
runs differing only in that flag produce identical traces — and the hydro
output of every hour follows the flag-independent formula
`min(net_load, hydro_capacity)` when the residual net load is positive,
the hour of day lies in the operating window and the hydro capacity is
positive, and 0 otherwise. -/
theorem C9_hydro_enabled_ignored
    (L PV W : List ℚ) (pvc wc hc bp bcap : ℚ)
    (sc : SolarConfig) (wcf : WindConfig) (bcf : BessConfig) (hpd ws we : ℕ) (e1 e2 : Bool) :
    calculate_dispatch_with_hydro L PV W pvc wc hc bp bcap sc wcf ⟨e1, hpd⟩ bcf ws we =
      calculate_dispatch_with_hydro L PV W pvc wc hc bp bcap sc wcf ⟨e2, hpd⟩ bcf ws we ∧
    ∀ i, i < L.length →
      ((calculate_dispatch_with_hydro L PV W pvc wc hc bp bcap
          sc wcf ⟨e1, hpd⟩ bcf ws we).getD i hr0).hydro_output =
        hydroOutFormula (dispatchParamsOf pvc wc hc bp bcap sc wcf bcf ws we) i
          (L.getD i 0) (PV.getD i 0) (W.getD i 0) := by
  constructor
  · rfl
  · intro i hi
    rw [calculate_dispatch_with_hydro]
    obtain ⟨s, hs⟩ := dispatchAux_getD
      (dispatchParamsOf pvc wc hc bp bcap sc wcf bcf ws we) L PV W L.length 0
      ((1 / 2) * bcap) i hi
    rw [Nat.zero_add] at hs
    rw [hs]
    exact dispatchStep_hydro_output _ i _ _ _ s

/-- Witness for C9: a one-hour run with the hydro flag off dispatches
hydro anyway (10 kW net load, 4 kW hydro capacity, window covering the
hour), and the formula evaluates to 4. -/
theorem C9_hydro_enabled_ignored_witness :
    ((calculate_dispatch_with_hydro [10] [0] [0] 0 0 4 0 0
      ⟨1⟩ ⟨false⟩ ⟨false, 8⟩ ⟨1, 1, 0, 1⟩ 0 24).getD 0 hr0).hydro_output =
      hydroOutFormula (dispatchParamsOf 0 0 4 0 0 ⟨1⟩ ⟨false⟩ ⟨1, 1, 0, 1⟩ 0 24) 0
        ([10].getD 0 0) ([0].getD 0 0) ([0].getD 0 0) ∧
    hydroOutFormula (dispatchParamsOf 0 0 4 0 0 ⟨1⟩ ⟨false⟩ ⟨1, 1, 0, 1⟩ 0 24) 0
        ([10].getD 0 0) ([0].getD 0 0) ([0].getD 0 0) = 4 :=
  ⟨(C9_hydro_enabled_ignored [10] [0] [0] 0 0 4 0 0
      ⟨1⟩ ⟨false⟩ ⟨1, 1, 0, 1⟩ 8 0 24 false true).2 0 (by norm_num),
   by norm_num [hydroOutFormula, dispatchParamsOf]⟩

/-- C3: for `1 ≤ hours_per_day ≤ 24`, the hydro window search returns the
window record of some start hour `s ≤ 24 - hours_per_day`; that record is
`(s, s + hours_per_day, unmet percent of s)`; its unmet percentage is at
most that of every evaluated window (all starts in
`[0, 24 - hours_per_day]`); and every earlier start has a strictly larger
unmet percentage, so a tie is resolved to the lowest start hour. -/
theorem C3_hydro_window_search
    (L PV W : List ℚ) (pvc wc hc bp bcap : ℚ)
    (sc : SolarConfig) (wcf : WindConfig) (hcf : HydroConfig) (bcf : BessConfig)
    (hmin : 1 ≤ hcf.hours_per_day) (hmax : hcf.hours_per_day ≤ 24) :
    ∃ s, s ≤ 24 - hcf.hours_per_day ∧
      find_optimal_hydro_window L PV W pvc wc hc bp bcap sc wcf hcf bcf =
        some (hydro_window_eval L PV W pvc wc hc bp bcap sc wcf hcf bcf s) ∧
      (hydro_window_eval L PV W pvc wc hc bp bcap sc wcf hcf bcf s).1 = s ∧
      (hydro_window_eval L PV W pvc wc hc bp bcap sc wcf hcf bcf s).2.1 =
        s + hcf.hours_per_day ∧
      (∀ t, t ≤ 24 - hcf.hours_per_day →
        (hydro_window_eval L PV W pvc wc hc bp bcap sc wcf hcf bcf s).2.2 ≤
          (hydro_window_eval L PV W pvc wc hc bp bcap sc wcf hcf bcf t).2.2) ∧
      (∀ t, t < s →
        (hydro_window_eval L PV W pvc wc hc bp bcap sc wcf hcf bcf s).2.2 <
          (hydro_window_eval L PV W pvc wc hc bp bcap sc wcf hcf bcf t).2.2) := by
  have hn : 0 < 24 + 1 - hcf.hours_per_day := by omega
  obtain ⟨s, hs, heq, hminp, hfirst⟩ := listMin_map_range (fun w => w.2.2)
    (hydro_window_eval L PV W pvc wc hc bp bcap sc wcf hcf bcf)
    (24 + 1 - hcf.hours_per_day) hn
  refine ⟨s, by omega, ?_, rfl, rfl, ?_, ?_⟩
  · rw [find_optimal_hydro_window]
    exact heq
  · intro t ht
    exact hminp t (by omega)
  · exact hfirst

/-- Witness for C3 with empty profiles and a 24-hour hydro window (one
candidate start). -/
theorem C3_hydro_window_search_witness :
    ∃ s, s ≤ 24 - 24 ∧
      find_optimal_hydro_window [] [] [] 0 0 0 0 0 ⟨1⟩ ⟨false⟩ ⟨true, 24⟩ ⟨1, 1, 0, 1⟩ =
        some (hydro_window_eval [] [] [] 0 0 0 0 0 ⟨1⟩ ⟨false⟩ ⟨true, 24⟩ ⟨1, 1, 0, 1⟩ s) ∧
      (hydro_window_eval [] [] [] 0 0 0 0 0 ⟨1⟩ ⟨false⟩ ⟨true, 24⟩ ⟨1, 1, 0, 1⟩ s).1 = s ∧
      (hydro_window_eval [] [] [] 0 0 0 0 0 ⟨1⟩ ⟨false⟩ ⟨true, 24⟩ ⟨1, 1, 0, 1⟩ s).2.1 =
        s + 24 ∧
      (∀ t, t ≤ 24 - 24 →
        (hydro_window_eval [] [] [] 0 0 0 0 0 ⟨1⟩ ⟨false⟩ ⟨true, 24⟩ ⟨1, 1, 0, 1⟩ s).2.2 ≤
          (hydro_window_eval [] [] [] 0 0 0 0 0 ⟨1⟩ ⟨false⟩ ⟨true, 24⟩ ⟨1, 1, 0, 1⟩ t).2.2) ∧
      (∀ t, t < s →
        (hydro_window_eval [] [] [] 0 0 0 0 0 ⟨1⟩ ⟨false⟩ ⟨true, 24⟩ ⟨1, 1, 0, 1⟩ s).2.2 <
          (hydro_window_eval [] [] [] 0 0 0 0 0 ⟨1⟩ ⟨false⟩ ⟨true, 24⟩ ⟨1, 1, 0, 1⟩ t).2.2) :=
  C3_hydro_window_search [] [] [] 0 0 0 0 0 ⟨1⟩ ⟨false⟩ ⟨true, 24⟩ ⟨1, 1, 0, 1⟩
    (by norm_num) (by norm_num)

/-- C5: when at least one result row is feasible, the solution selector
returns a feasible row of the collection with minimal system NPC among
the feasible rows; when no row is feasible, it returns the explicit
no-solution value `none` instead of any infeasible row. -/
theorem C5_optimal_solution (results : List ResultRow) :
    ((∃ r ∈ results, r.feasible = true) →
      ∃ m, find_optimal_solution results = some m ∧ m ∈ results ∧ m.feasible = true ∧
        ∀ r ∈ results, r.feasible = true → m.npc ≤ r.npc) ∧
    ((∀ r ∈ results, r.feasible = false) → find_optimal_solution results = none) := by
  constructor
  · rintro ⟨r0, hr0mem, hr0f⟩
    have hmem : r0 ∈ results.filter (fun r => r.feasible) :=
      List.mem_filter_of_mem hr0mem (by rw [hr0f])
    cases hfil : results.filter (fun r => r.feasible) with
    | nil => rw [hfil] at hmem; simp at hmem
    | cons a t =>
      have hbest : minBy (fun r => r.npc) a t ∈ a :: t := minBy_mem _ _ _
      have hbestfil : minBy (fun r => r.npc) a t ∈ results.filter (fun r => r.feasible) := by
        rw [hfil]; exact hbest
      refine ⟨minBy (fun r => r.npc) a t, ?_, ?_, ?_, ?_⟩
      · rw [find_optimal_solution, hfil, listMin]
      · exact List.mem_of_mem_filter hbestfil
      · exact List.of_mem_filter hbestfil
      · intro r hr hrf
        have hrfil : r ∈ results.filter (fun r => r.feasible) :=
          List.mem_filter_of_mem hr (by rw [hrf])
        rw [hfil] at hrfil
        exact minBy_le (fun r => r.npc) t a r hrfil
  · intro hall
    have hnil : results.filter (fun r => r.feasible) = [] := by
      rw [List.filter_eq_nil_iff]
      intro a ha
      rw [hall a ha]
      exact Bool.false_ne_true
    rw [find_optimal_solution, hnil, listMin]

/-- Witness for C5: a collection whose feasible minimum-NPC row is row 3
(NPC 7), and a fully infeasible collection yielding `none`. -/
theorem C5_optimal_solution_witness :
    (∃ m, find_optimal_solution
        [⟨1, false, 5⟩, ⟨2, true, 10⟩, ⟨3, true, 7⟩] = some m ∧
      m ∈ [(⟨1, false, 5⟩ : ResultRow), ⟨2, true, 10⟩, ⟨3, true, 7⟩] ∧ m.feasible = true ∧
      ∀ r ∈ [(⟨1, false, 5⟩ : ResultRow), ⟨2, true, 10⟩, ⟨3, true, 7⟩],
        r.feasible = true → m.npc ≤ r.npc) ∧
    find_optimal_solution [(⟨1, false, 3⟩ : ResultRow)] = none :=
  ⟨(C5_optimal_solution [⟨1, false, 5⟩, ⟨2, true, 10⟩, ⟨3, true, 7⟩]).1
      ⟨⟨2, true, 10⟩, by simp, rfl⟩,
   (C5_optimal_solution [⟨1, false, 3⟩]).2 (by
      intro r hr
      rw [List.mem_singleton.mp hr])⟩
